import Mathlib

/-!
Verification of `ansible_base/lib/redis/client.py` (django-ansible-base).

The file shallowly embeds the two classes of that module:

* `DABRedisCluster.mget` — a multi-get override on a Redis cluster client that
  falls back to the non-atomic variant on a cross-slot error (`dabMget` below);
* `RedisClient.connect` — translation of a configuration options mapping plus a
  server URL into the keyword arguments of the underlying client constructor
  (`connect` below), including Python's `urllib.parse.urlparse` / `parse_qs`
  behaviour, `int()` parsing, and the clustered-hosts list parser.

Python dictionaries are modelled as association lists (`Kwargs`) whose values
live in `PyVal`.  All string processing is done on `List Char` with structural
recursion so that every definition evaluates by `decide`.  Unicode-specific
behaviour (NFKC netloc validation, UTF-8 percent-decoding of multi-byte
sequences, unicode case folding) is modelled at ASCII fidelity; every concrete
input used in the theorems below is ASCII, where the model agrees with CPython.
Object mutation is modelled explicitly for the deep-copy claim via a small heap
(`connectHeap`): references are indices into a list of dictionaries.
-/

/-- A Python value as it appears in the connection keyword-argument
dictionaries of the module: strings (URL components, query parameters),
integers (ports, db index), booleans (`clustered`, `ssl` flags), `None`,
and the list of `ClusterNode`s stored under `startup_nodes`. -/
inductive PyVal where
  | str (s : String)
  | int (n : Int)
  | bool (b : Bool)
  | none
  | nodes (ns : List (String × Int))
deriving DecidableEq

/-- `redis.cluster.ClusterNode(host, port)` from the external redis library,
modelled as the pair of its two stored fields. -/
def mkClusterNode (host : String) (port : Int) : String × Int := (host, port)

/-- Python truthiness (`if x:`) for the values of `PyVal`:
empty string, `0`, `False`, `None` and the empty list are falsy. -/
def pyTruthy : PyVal → Bool
  | .str s => !(s == "")
  | .int n => !(n == 0)
  | .bool b => b
  | .none => false
  | .nodes ns => !(ns == [])

/-- Python `str()` of a `PyVal`, used only to build error messages
(`'...'.format(file, file_setting)`). -/
def pyStr : PyVal → String
  | .str s => s
  | .int n => toString n
  | .bool b => if b then "True" else "False"
  | .none => "None"
  | .nodes _ => "[...]"

/-- A Python `dict` with string keys, as an insertion-ordered association
list.  Python dictionaries never hold duplicate keys; the operations below
agree with `dict` semantics on duplicate-free lists. -/
abbrev Kwargs := List (String × PyVal)

/-- Dictionary lookup `d.get(key)` (first binding wins, as in a
duplicate-free Python dict). -/
def getKV : Kwargs → String → Option PyVal
  | [], _ => none
  | p :: rest, key => if p.1 = key then some p.2 else getKV rest key

/-- Dictionary assignment `d[key] = v`: replace the existing binding in
place, or append a new one. -/
def setKV : Kwargs → String → PyVal → Kwargs
  | [], key, v => [(key, v)]
  | p :: rest, key, v => if p.1 = key then (p.1, v) :: rest else p :: setKV rest key v

/-- `d.pop(key, None)`: remove the binding for `key`.  On the
duplicate-free lists produced by dict operations this equals filtering the
key out. -/
def popKV (m : Kwargs) (key : String) : Kwargs :=
  m.filter (fun p => !(p.1 == key))

/-- All exceptions relevant to `DABRedisCluster.mget`:
`redis.exceptions.RedisClusterException` carrying its message, and any
other exception type. -/
inductive PyExc where
  | redisClusterExc (msg : String)
  | otherExc (kind : String) (msg : String)
deriving DecidableEq

/-- Errors raised by `RedisClient.connect`:
`django.core.exceptions.ImproperlyConfigured` with its message, and
`ValueError` (raised by `urlparse`'s `port` accessor on a malformed port). -/
inductive PyErr where
  | improperlyConfigured (msg : String)
  | valueError (msg : String)
deriving DecidableEq

deriving instance DecidableEq for Except

/-! ### Character-level string utilities (structural, `decide`-friendly) -/

/-- `needle.isPrefixOf hay` on character lists. -/
def isPrefixL : List Char → List Char → Bool
  | [], _ => true
  | _ :: _, [] => false
  | a :: as, b :: bs => a == b && isPrefixL as bs

/-- `needle` occurs as a contiguous substring of `hay` (Python's `in`). -/
def isInfixL (needle : List Char) : List Char → Bool
  | [] => isPrefixL needle []
  | b :: bs => isPrefixL needle (b :: bs) || isInfixL needle bs

/-- Python's substring test `needle in hay`. -/
def strContains (hay needle : String) : Bool :=
  isInfixL needle.data hay.data

/-- `s.split(c)` for a one-character separator: always returns at least one
(possibly empty) group, like Python's `str.split` with an explicit
separator. -/
def splitOnChar (c : Char) : List Char → List (List Char)
  | [] => [[]]
  | x :: xs =>
    match splitOnChar c xs with
    | g :: gs => if x == c then [] :: g :: gs else (x :: g) :: gs
    | [] => [[x]]

/-- Python `s.split(c)` on strings (single-character separator). -/
def pySplitChar (s : String) (c : Char) : List String :=
  (splitOnChar c s.data).map String.mk

/-- Split at the first occurrence of `c`: `some (before, after)` when `c`
occurs, `none` otherwise.  Implements `str.split(c, 1)` / `str.partition`. -/
def breakAtFirst (c : Char) : List Char → Option (List Char × List Char)
  | [] => none
  | x :: xs =>
    if x == c then some ([], xs)
    else (breakAtFirst c xs).map (fun p => (x :: p.1, p.2))

/-- Split at the last occurrence of `c` (Python `str.rpartition`). -/
def breakAtLast (c : Char) (cs : List Char) : Option (List Char × List Char) :=
  (breakAtFirst c cs.reverse).map (fun p => (p.2.reverse, p.1.reverse))

/-- ASCII hex digit test. -/
def isHexB (c : Char) : Bool :=
  c.isDigit || ('a' ≤ c ∧ c ≤ 'f') || ('A' ≤ c ∧ c ≤ 'F')

/-! ### Python `int(s)` (base 10) -/

/-- Whitespace stripped by Python's `int()` (ASCII part). -/
def pySpaceB (c : Char) : Bool :=
  c == ' ' || c == '\t' || c == '\n' || c == '\r' || c == '\x0b' || c == '\x0c'

/-- Digit run with the underscore rules of Python numeric literals: an
underscore must sit between two digits.  The first character is checked by
the caller to be a digit. -/
def pyDigitsAux : List Char → Nat → Option Nat
  | [], acc => some acc
  | '_' :: c :: rest, acc =>
    if c.isDigit then pyDigitsAux (c :: rest) acc else none
  | ['_'], _ => none
  | c :: rest, acc =>
    if c.isDigit then pyDigitsAux rest (10 * acc + (c.toNat - 48)) else none

/-- Non-empty digit run (with underscores) starting with a digit. -/
def pyDigitsCs : List Char → Option Nat
  | [] => none
  | c :: rest => if c.isDigit then pyDigitsAux (c :: rest) 0 else none

/-- Python `int(s)` in base 10 on a character list: strip whitespace,
optional sign, then a digit run; `none` models `ValueError`. -/
def pyIntCs (cs0 : List Char) : Option Int :=
  let cs := ((cs0.dropWhile pySpaceB).reverse.dropWhile pySpaceB).reverse
  match cs with
  | '+' :: rest => (pyDigitsCs rest).map (fun n => (n : Int))
  | '-' :: rest => (pyDigitsCs rest).map (fun n => -(n : Int))
  | _ => (pyDigitsCs cs).map (fun n => (n : Int))

/-- Python `int(s)` in base 10. -/
def pyInt (s : String) : Option Int :=
  pyIntCs s.data

/-! ### `urllib.parse.urlparse` -/

/-- The five components of `urlparse` used by the module (the `params`
component is split off the path and dropped, as in `urlparse`). -/
structure UrlParts where
  scheme : String
  netloc : String
  path : String
  query : String
  fragment : String
deriving DecidableEq

/-- Characters allowed in a URL scheme (`scheme_chars` in CPython). -/
def schemeCharB (c : Char) : Bool :=
  c.isAlpha || c.isDigit || c == '+' || c == '-' || c == '.'

/-- Leading C0-control-or-space characters stripped by `urlsplit`. -/
def c0OrSpaceB (c : Char) : Bool :=
  c.toNat ≤ 0x20

/-- Split off the scheme: the text before the first `:` when it starts
with an ASCII letter and consists of scheme characters; otherwise no
scheme.  Returns `(scheme chars, remainder)`. -/
def splitSchemeCs (cs : List Char) : List Char × List Char :=
  match cs.findIdx? (fun c => c == ':') with
  | some (i + 1) =>
    if (cs.headD ' ').isAlpha && (cs.take (i + 1)).all schemeCharB then
      (cs.take (i + 1), cs.drop (i + 2))
    else ([], cs)
  | _ => ([], cs)

/-- Split off the netloc after a leading `//`: it extends to the first of
`/`, `?`, `#`.  Returns `(netloc, remainder)`. -/
def splitNetlocCs : List Char → List Char × List Char
  | '/' :: '/' :: rest =>
    let n := rest.takeWhile (fun c => !(c == '/' || c == '?' || c == '#'))
    (n, rest.drop n.length)
  | cs => ([], cs)

/-- Index of the first occurrence of `c` at or after `start`
(Python `s.find(c, start)`). -/
def idxFrom (cs : List Char) (c : Char) (start : Nat) : Option Nat :=
  ((cs.drop start).findIdx? (fun x => x == c)).map (fun i => i + start)

/-- Index of the last occurrence of `c` (Python `s.rfind(c)`). -/
def lastIdx (cs : List Char) (c : Char) : Option Nat :=
  (cs.reverse.findIdx? (fun x => x == c)).map (fun i => cs.length - 1 - i)

/-- The schemes for which `urlparse` splits `;params` off the path
(`uses_params` in CPython); none of the schemes this module accepts is
among them. -/
def usesParams : List String :=
  ["", "ftp", "hdl", "prospero", "http", "imap", "https", "shttp", "rtsp",
   "rtsps", "rtspu", "sip", "sips", "mms", "sftp", "tel"]

/-- `urlparse`'s `_splitparams`: drop a `;params` suffix from the last
path segment.  Returns the path without parameters. -/
def splitParamsCs (cs : List Char) : List Char :=
  if cs.contains ';' then
    if cs.contains '/' then
      match idxFrom cs ';' ((lastIdx cs '/').getD 0) with
      | some i => cs.take i
      | none => cs
    else
      match cs.findIdx? (fun x => x == ';') with
      | some i => cs.take i
      | none => cs
  else cs

/-- `urllib.parse.urlparse` at ASCII fidelity: left-strip C0
controls/spaces (trailing ones are preserved), remove tab/CR/LF, split
scheme, netloc (after `//`), fragment (first `#`), query (first `?`
before the fragment), and — only for `uses_params` schemes — path
parameters. -/
def pyUrlparse (url : String) : UrlParts :=
  let cs := url.data.dropWhile c0OrSpaceB
  let cs := cs.filter (fun c => !(c == '\t' || c == '\r' || c == '\n'))
  let (sch, rest) := splitSchemeCs cs
  let (nl, rest) := splitNetlocCs rest
  let (rest, frag) :=
    match breakAtFirst '#' rest with
    | some (a, b) => (a, b)
    | none => (rest, ([] : List Char))
  let (rest, qry) :=
    match breakAtFirst '?' rest with
    | some (a, b) => (a, b)
    | none => (rest, ([] : List Char))
  let scheme := String.mk (sch.map Char.toLower)
  let path := if scheme ∈ usesParams then splitParamsCs rest else rest
  { scheme := scheme
    netloc := String.mk nl
    path := String.mk path
    query := String.mk qry
    fragment := String.mk frag }

/-- `_hostinfo`: `(host, port)` raw components of the netloc — text after
the last `@`, with bracketed IPv6 hosts, the port after the following `:`;
an empty port counts as absent. -/
def hostinfoCs (netloc : List Char) : List Char × Option (List Char) :=
  let afterAt :=
    match breakAtLast '@' netloc with
    | some (_, b) => b
    | none => netloc
  match breakAtFirst '[' afterAt with
  | some (_, bracketed) =>
    let hp :=
      match breakAtFirst ']' bracketed with
      | some (a, b) => (a, b)
      | none => (bracketed, ([] : List Char))
    let port :=
      match breakAtFirst ':' hp.2 with
      | some (_, p) => p
      | none => []
    (hp.1, if port = [] then none else some port)
  | none =>
    match breakAtFirst ':' afterAt with
    | some (a, p) => (a, if p = [] then none else some p)
    | none => (afterAt, none)

/-- The `hostname` accessor: lowercased host (zone id of a scoped IPv6
address preserved), `None` when empty. -/
def urlHostname (p : UrlParts) : Option String :=
  let hn := (hostinfoCs p.netloc.data).1
  if hn = [] then none
  else
    match breakAtFirst '%' hn with
    | some (a, b) => some (String.mk (a.map Char.toLower ++ '%' :: b))
    | none => some (String.mk (hn.map Char.toLower))

/-- The `port` accessor: `None` when absent; when the raw port is a
non-empty run of ASCII digits (`port.isdigit() and port.isascii()`) its
decimal value, which must lie in `0..65535`; a `ValueError` otherwise. -/
def urlPortE (p : UrlParts) : Except PyErr (Option Int) :=
  match (hostinfoCs p.netloc.data).2 with
  | none => .ok none
  | some pcs =>
    if pcs.all Char.isDigit then
      let n : Nat := pcs.foldl (fun a c => 10 * a + (c.toNat - 48)) 0
      if n ≤ 65535 then .ok (some (n : Int))
      else .error (.valueError "Port out of range 0-65535")
    else .error (.valueError "Port could not be cast to integer value")

/-- `_userinfo`: `some (username, password?)` when the netloc has a `@`;
the password is present only when the userinfo has a `:`. -/
def userinfoCs (netloc : List Char) : Option (List Char × Option (List Char)) :=
  match breakAtLast '@' netloc with
  | some (ui, _) =>
    match breakAtFirst ':' ui with
    | some (u, pw) => some (u, some pw)
    | none => some (ui, none)
  | none => none

/-- The `username` accessor. -/
def urlUsername (p : UrlParts) : Option String :=
  (userinfoCs p.netloc.data).map (fun x => String.mk x.1)

/-- The `password` accessor. -/
def urlPassword (p : UrlParts) : Option String :=
  match userinfoCs p.netloc.data with
  | some (_, some pw) => some (String.mk pw)
  | _ => none

/-! ### Parse-time netloc validation (`urlsplit` raises `ValueError`)

`urlsplit` rejects a netloc with unbalanced brackets
(`ValueError("Invalid IPv6 URL")`), and — CPython 3.11+ — validates the
text between the first `[` and the following `]` with
`_check_bracketed_host` (IPvFuture or a valid `ipaddress` IPv6 address;
an IPv4 address in brackets, or anything else, raises `ValueError`). -/

/-- `ipaddress.IPv4Address._parse_octet`: non-empty, ASCII digits only,
at most 3 characters, no leading zero (except `"0"` itself), value at
most 255. -/
def isIPv4Octet (cs : List Char) : Bool :=
  !(cs == []) && cs.all Char.isDigit && decide (cs.length ≤ 3) &&
    (cs == ['0'] || !(cs.headD '0' == '0')) &&
    decide (cs.foldl (fun a c => 10 * a + (c.toNat - 48)) 0 ≤ 255)

/-- `ipaddress.IPv4Address` textual validity: no `/`, exactly four valid
dot-separated octets. -/
def isIPv4 (cs : List Char) : Bool :=
  !(cs == []) && !(cs.contains '/') &&
    (match splitOnChar '.' cs with
     | [a, b, c, d] =>
       isIPv4Octet a && isIPv4Octet b && isIPv4Octet c && isIPv4Octet d
     | _ => false)

/-- `ipaddress._BaseV6._parse_hextet`: hex digits only, non-empty
(`int('', 16)` raises), at most 4 characters. -/
def isHextet (cs : List Char) : Bool :=
  !(cs == []) && cs.all isHexB && decide (cs.length ≤ 4)

/-- Validity core of `IPv6Address._ip_int_from_string` on the
colon-separated parts (after an IPv4-style suffix, if any, has been
replaced by two hextets): at most 9 parts, at most one internal empty
part (the `::`), an empty endpoint only adjacent to the `::`, at most 7
copied parts around the `::` (else exactly 8 parts), and every copied
part a valid hextet. -/
def ipv6PartsValid (parts : List (List Char)) : Bool :=
  let n := parts.length
  if decide (n > 9) then false
  else
    match (List.range n).filter
        (fun i => decide (0 < i) && decide (i < n - 1) &&
          (parts.getD i ['x'] == [])) with
    | [] => decide (n = 8) && parts.all isHextet
    | [skip] =>
      let headEmpty := parts.getD 0 ['x'] == []
      let tailEmpty := parts.getD (n - 1) ['x'] == []
      let hi := if headEmpty then skip - 1 else skip
      let lo0 := n - skip - 1
      let lo := if tailEmpty then lo0 - 1 else lo0
      (!headEmpty || decide (hi = 0)) && (!tailEmpty || decide (lo = 0)) &&
        decide (hi + lo ≤ 7) && (parts.take hi).all isHextet &&
        (parts.drop (n - lo)).all isHextet
    | _ => false

/-- `ipaddress.IPv6Address` textual validity: no `/`; an optional
`%scope` (non-empty, containing no further `%`); a non-empty address
with at least 3 colon-separated parts, an optional IPv4-style suffix in
the last part, and the hextet grammar of `ipv6PartsValid`. -/
def isIPv6 (cs : List Char) : Bool :=
  if cs.contains '/' then false
  else
    let addr :=
      match breakAtFirst '%' cs with
      | some (a, _) => a
      | none => cs
    let scopeOk :=
      match breakAtFirst '%' cs with
      | some (_, scope) => !(scope == []) && !(scope.contains '%')
      | none => true
    scopeOk && !(addr == []) &&
      (let parts := splitOnChar ':' addr
       if decide (parts.length < 3) then false
       else
         let last := parts.getLastD []
         if last.contains '.' then
           isIPv4 last && ipv6PartsValid (parts.dropLast ++ [['0'], ['0']])
         else ipv6PartsValid parts)

/-- `_check_bracketed_host`'s IPvFuture branch, the regex
`\Av[a-fA-F0-9]+\..+\Z`: `v`, one or more hex digits, a `.`, then at
least one character (the regex `.` does not match a newline; tab, CR and
LF were already removed from the URL by `urlsplit`). -/
def isIPvFuture (cs : List Char) : Bool :=
  match cs with
  | 'v' :: rest =>
    let hexPart := rest.takeWhile isHexB
    let after := rest.drop hexPart.length
    !(hexPart == []) &&
      (match after with
       | '.' :: tail => !(tail == []) && tail.all (fun c => !(c == '
'))
       | _ => false)
  | _ => false

/-- `_check_bracketed_host`: a host starting with `v` must be an
IPvFuture; otherwise `ip_address` must yield an IPv6 address (an IPv4
address in brackets, or any other text, raises `ValueError`; IPv4 and
IPv6 textual forms are disjoint, so this is exactly `isIPv6`). -/
def bracketedHostOk (cs : List Char) : Bool :=
  match cs with
  | 'v' :: _ => isIPvFuture cs
  | _ => isIPv6 cs

/-- The netloc bracket validation `urlsplit` performs at parse time:
unbalanced `[`/`]` raise `ValueError("Invalid IPv6 URL")`; with both
brackets present, the text between the first `[` and the following `]`
(`netloc.partition('[')[2].partition(']')[0]`) must pass
`_check_bracketed_host`, whose failures are also `ValueError`s (CPython
uses several message texts there; they are collapsed into one here). -/
def netlocCheckE (netloc : List Char) : Except PyErr Unit :=
  let hasOpen := netloc.contains '['
  let hasClose := netloc.contains ']'
  if (hasOpen && !hasClose) || (hasClose && !hasOpen) then
    .error (.valueError "Invalid IPv6 URL")
  else if hasOpen && hasClose then
    let afterOpen :=
      match breakAtFirst '[' netloc with
      | some (_, b) => b
      | none => []
    let bracketed :=
      match breakAtFirst ']' afterOpen with
      | some (a, _) => a
      | none => afterOpen
    if bracketedHostOk bracketed then .ok ()
    else .error (.valueError "Invalid bracketed host")
  else .ok ()

/-- `urlparse` as `connect` calls it: the component split `pyUrlparse`
together with `urlsplit`'s parse-time netloc validation.  A validation
failure is the `ValueError` the source's comment ("If we can't parse
this just let it raise") deliberately lets propagate. -/
def pyUrlparseE (url : String) : Except PyErr UrlParts :=
  let p := pyUrlparse url
  match netlocCheckE p.netloc.data with
  | .error e => .error e
  | .ok _ => .ok p

/-! ### `urllib.parse.parse_qs` -/

/-- Percent-decode (`unquote`): each `%XY` with two hex digits becomes the
character with that code; a `%` not followed by two hex digits stays
literal.  (CPython additionally UTF-8-decodes multi-byte sequences; this
model is exact for ASCII codes.) -/
def pctDecode : List Char → List Char
  | '%' :: a :: b :: rest =>
    if isHexB a && isHexB b then
      Char.ofNat (16 * hexVal a + hexVal b) :: pctDecode rest
    else '%' :: pctDecode (a :: b :: rest)
  | c :: rest => c :: pctDecode rest
  | [] => []
where
  hexVal (c : Char) : Nat :=
    if c.isDigit then c.toNat - 48
    else if 'a' ≤ c ∧ c ≤ 'f' then c.toNat - 87
    else if 'A' ≤ c ∧ c ≤ 'F' then c.toNat - 55
    else 0

/-- `unquote_plus` on character lists: `+` becomes a space, then
percent-decoding. -/
def unquotePlusCs (cs : List Char) : List Char :=
  pctDecode (cs.map (fun c => if c == '+' then ' ' else c))

/-- `parse_qsl` with the default `keep_blank_values=False`: split the
query on `&`; keep only fields of the form `name=value` with a non-empty
value, unquoting both parts; preserve order. -/
def parseQsl (q : String) : List (String × String) :=
  (splitOnChar '&' q.data).filterMap (fun field =>
    if field = [] then none
    else
      match breakAtFirst '=' field with
      | none => none
      | some (n, v) =>
        if v = [] then none
        else some (String.mk (unquotePlusCs n), String.mk (unquotePlusCs v)))

/-- Keys of `parse_qs`'s dict, in first-occurrence order (Python dict
insertion order). -/
def firstOccurAux : List String → List String → List String
  | [], _ => []
  | x :: xs, seen =>
    if x ∈ seen then firstOccurAux xs seen else x :: firstOccurAux xs (x :: seen)

/-- Keys of the `parse_qs` dictionary in insertion order. -/
def qsKeys (ps : List (String × String)) : List String :=
  firstOccurAux (ps.map Prod.fst) []

/-- All values bound to `key`, in query-string order. -/
def valuesFor (ps : List (String × String)) (key : String) : List String :=
  ps.filterMap (fun pr => if pr.1 = key then some pr.2 else none)

/-- `parse_qs`: group the kept `name=value` pairs into an ordered
dictionary from names to lists of values. -/
def parseQs (q : String) : List (String × List String) :=
  (qsKeys (parseQsl q)).map (fun k => (k, valuesFor (parseQsl q) k))

/-! ### `RedisClient.connect` -/

/-- The error message of the unsupported-scheme `ImproperlyConfigured`. -/
def schemeErrMsg : String :=
  "This redis client can only accept file, unix, redis or rediss URLs"

/-- The (generic) error message used for every malformed
`clustered_hosts` failure. -/
def clusterHostsErrMsg : String :=
  "Unable to parse cluster_hosts, see logs for more details"

/-- `'Unable to read file {} from setting {}'.format(file, file_setting)`. -/
def mkSslMsg (file : PyVal) (fileSetting : String) : String :=
  "Unable to read file " ++ pyStr file ++ " from setting " ++ fileSetting

/-- `self.clustered`, as set in `__init__`:
`connection_kwargs.get('clustered', False)`. -/
def clusteredOf (opts : Kwargs) : PyVal :=
  (getKV opts "clustered").getD (.bool false)

/-- `self.clustered_hosts`, as set in `__init__`:
`connection_kwargs.get('clustered_hosts', '')`. -/
def clusteredHostsOf (opts : Kwargs) : PyVal :=
  (getKV opts "clustered_hosts").getD (.str "")

/-- `int(parsed_url.path.split('/')[1])` with `IndexError`/`ValueError`
suppressed: the db index from the URL path, when present and parseable. -/
def pathDb (path : String) : Option Int :=
  match (pySplitChar path '/').get? 1 with
  | some seg => pyInt seg
  | none => none

/-- `if attribute: kwargs['host'] = attribute` for the `hostname`
attribute (truthy means non-`None`; `urlHostname` is never `some ""`). -/
def urlStepHost (k : Kwargs) (p : UrlParts) : Kwargs :=
  match urlHostname p with
  | some hn => setKV k "host" (.str hn)
  | none => k

/-- `if attribute: kwargs['port'] = attribute` for the `port` attribute
(an integer is truthy when non-zero). -/
def urlStepPort (k : Kwargs) (po : Option Int) : Kwargs :=
  match po with
  | some n => if n = 0 then k else setKV k "port" (.int n)
  | none => k

/-- `if attribute: kwargs['username'] = attribute` (an empty username is
falsy and not copied). -/
def urlStepUser (k : Kwargs) (p : UrlParts) : Kwargs :=
  match urlUsername p with
  | some u => if u = "" then k else setKV k "username" (.str u)
  | none => k

/-- `if attribute: kwargs['password'] = attribute` (an empty password is
falsy and not copied). -/
def urlStepPass (k : Kwargs) (p : UrlParts) : Kwargs :=
  match urlPassword p with
  | some pw => if pw = "" then k else setKV k "password" (.str pw)
  | none => k

/-- `kwargs['db'] = int(path.split('/')[1])` with failures suppressed. -/
def urlStepDb (k : Kwargs) (path : String) : Kwargs :=
  match pathDb path with
  | some n => setKV k "db" (.int n)
  | none => k

/-- Lines 55–72 of `client.py`: branch on the URL scheme and copy URL
components into the working keyword arguments.  The `unix`/`file` branch
sets `unix_socket_path`; the `redis`/`rediss` branch copies each truthy
component of `host`, `port`, `username`, `password` (in source loop
order: the steps are applied host-first) and then the db index; any other
scheme raises `ImproperlyConfigured`.  The `port` accessor raises
`ValueError` on a malformed port inside the loop; since the working
dictionary is discarded when the exception propagates, evaluating the
port before the pure update chain is observationally identical. -/
def applyUrl (k : Kwargs) (p : UrlParts) : Except PyErr Kwargs :=
  if p.scheme = "file" ∨ p.scheme = "unix" then
    .ok (setKV k "unix_socket_path" (.str p.path))
  else if p.scheme = "redis" ∨ p.scheme = "rediss" then
    match urlPortE p with
    | .error e => .error e
    | .ok po =>
      .ok (urlStepDb
            (urlStepPass (urlStepUser (urlStepPort (urlStepHost k p) po) p) p)
            p.path)
  else .error (.improperlyConfigured schemeErrMsg)

/-- Lines 74–76: `kwargs[key] = value[-1]` for every entry of
`parse_qs(parsed_url.query)`. -/
def applyQuery (k : Kwargs) (q : String) : Kwargs :=
  (parseQs q).foldl (fun m pr => setKV m pr.1 (.str (pr.2.getLastD ""))) k

/-- One iteration of the TLS file check: if the setting is present and
truthy but `os.access(file, os.R_OK)` fails, raise. `readable` is the
file-system readability oracle standing for `os.access`. -/
def sslCheckOne (k : Kwargs) (readable : PyVal → Bool) (fs : String) :
    Except PyErr Unit :=
  let file := (getKV k fs).getD .none
  if pyTruthy file && !(readable file) then
    .error (.improperlyConfigured (mkSslMsg file fs))
  else .ok ()

/-- The TLS file loop over the given settings. -/
def sslCheckFiles (k : Kwargs) (readable : PyVal → Bool) :
    List String → Except PyErr Unit
  | [] => .ok ()
  | fs :: rest =>
    match sslCheckOne k readable fs with
    | .error e => .error e
    | .ok _ => sslCheckFiles k readable rest

/-- The settings checked by the TLS block, in source order. -/
def sslSettings : List String := ["ssl_certfile", "ssl_keyfile", "ssl_ca_certs"]

/-- Lines 78–82: when `kwargs.get('ssl', None)` is truthy, check the three
TLS file settings. -/
def sslCheck (k : Kwargs) (readable : PyVal → Bool) : Except PyErr Unit :=
  if pyTruthy ((getKV k "ssl").getD .none) then
    sslCheckFiles k readable sslSettings
  else .ok ()

/-- The `clustered_hosts` token loop: each comma-separated token must
split on `:` into exactly two parts with an integer port; nodes are
appended in order; any malformed token raises the generic
`ImproperlyConfigured`. -/
def parseClusterHostsGo : List String → List (String × Int) →
    Except PyErr (List (String × Int))
  | [], acc => .ok acc
  | hp :: rest, acc =>
    match pySplitChar hp ':' with
    | [node, portString] =>
      match pyInt portString with
      | some port => parseClusterHostsGo rest (acc ++ [mkClusterNode node port])
      | none => .error (.improperlyConfigured clusterHostsErrMsg)
    | _ => .error (.improperlyConfigured clusterHostsErrMsg)

/-- `clustered_hosts.split(',')` parsed into the startup-node list. -/
def parseClusterHosts (s : String) : Except PyErr (List (String × Int)) :=
  parseClusterHostsGo (pySplitChar s ',') []

/-- A well-formed `clustered_hosts` token: exactly two colon-separated
parts and an integer port. -/
def goodToken (t : String) : Bool :=
  match pySplitChar t ':' with
  | [_, portString] => (pyInt portString).isSome
  | _ => false

/-- The client handle returned by `connect`: the standalone `Redis(**kwargs)`
or the `DABRedisCluster(**kwargs)`, each recording the keyword arguments it
was constructed with. -/
inductive Handle where
  | standalone (k : Kwargs)
  | cluster (k : Kwargs)
deriving DecidableEq

/-- The keyword arguments a handle was constructed with. -/
def Handle.kwargs : Handle → Kwargs
  | .standalone k => k
  | .cluster k => k

/-- Lines 84–117: branch on `self.clustered` / `self.clustered_hosts`;
with clustered hosts, pop `host`/`port`, require the hosts value to be a
string, parse it, and store the node list under `startup_nodes`.  Returns
the result together with the final state of the working dictionary (whose
mutations the heap model records). -/
def clusterStepK (opts : Kwargs) (k : Kwargs) : Except PyErr Handle × Kwargs :=
  if pyTruthy (clusteredOf opts) then
    if pyTruthy (clusteredHostsOf opts) then
      let k := popKV (popKV k "host") "port"
      match clusteredHostsOf opts with
      | .str s =>
        match parseClusterHosts s with
        | .ok ns =>
          (.ok (.cluster (setKV k "startup_nodes" (.nodes ns))),
           setKV k "startup_nodes" (.nodes ns))
        | .error e => (.error e, k)
      | _ => (.error (.improperlyConfigured clusterHostsErrMsg), k)
    else (.ok (.cluster k), k)
  else (.ok (.standalone k), k)

/-- The working keyword arguments after the deep copy, the pops of the two
cluster settings, the `urlparse` call (whose parse-time `ValueError`
propagates), the URL branch and the query parameters (lines 48–76). -/
def buildKwargs (opts : Kwargs) (url : String) : Except PyErr Kwargs :=
  let kwargs := popKV (popKV opts "clustered") "clustered_hosts"
  match pyUrlparseE url with
  | .error e => .error e
  | .ok p =>
    match applyUrl kwargs p with
    | .error e => .error e
    | .ok k => .ok (applyQuery k p.query)

/-- `RedisClient.connect`: `opts` is `OPTIONS.CLIENT_CLASS_KWARGS`, `url`
is `self._server[index]`, `readable` is the `os.access` oracle. -/
def connect (opts : Kwargs) (url : String) (readable : PyVal → Bool) :
    Except PyErr Handle :=
  match buildKwargs opts url with
  | .error e => .error e
  | .ok k =>
    match sslCheck k readable with
    | .error e => .error e
    | .ok _ => (clusterStepK opts k).1

/-! ### Heap model of `connect` (explicit object mutation)

References are indices into a list of dictionaries.  `connect` reads the
caller's options dictionary through its reference, allocates the deep copy
as a fresh object, and performs every dictionary mutation on the copy.  -/

/-- Dereference: the dictionary stored at `r` (empty for a dangling
reference). -/
def heapGetD (h : List Kwargs) (r : Nat) : Kwargs :=
  (h.get? r).getD []

/-- Store `v` at reference `r`. -/
def heapSet (h : List Kwargs) (r : Nat) (v : Kwargs) : List Kwargs :=
  h.set r v

/-- `RedisClient.connect` with the object store explicit: the working
dictionary is a fresh deep copy of the options dictionary
(`copy.deepcopy`), and every subsequent mutation (`pop`, item assignment)
targets the copy.  Consecutive mutations performed inside one helper are
written back as one store update; no other reference is read in between,
so this is observationally the per-statement store.  Returns the result
and the final store. -/
def connectHeap (heap : List Kwargs) (optsRef : Nat) (url : String)
    (readable : PyVal → Bool) : Except PyErr Handle × List Kwargs :=
  let w := heap.length
  let h1 := heap ++ [heapGetD heap optsRef]
  let h2 := heapSet h1 w (popKV (heapGetD h1 w) "clustered")
  let h3 := heapSet h2 w (popKV (heapGetD h2 w) "clustered_hosts")
  match pyUrlparseE url with
  | .error e => (.error e, h3)
  | .ok p =>
    match applyUrl (heapGetD h3 w) p with
    | .error e => (.error e, h3)
    | .ok k =>
      let h4 := heapSet h3 w (applyQuery k p.query)
      match sslCheck (heapGetD h4 w) readable with
      | .error e => (.error e, h4)
      | .ok _ =>
        let res := clusterStepK (heapGetD heap optsRef) (heapGetD h4 w)
        (res.1, heapSet h4 w res.2)

/-! ### `DABRedisCluster.mget` -/

/-- The slot-error marker tested by `DABRedisCluster.mget`. -/
def mgetSlotErrMsg : String := "MGET - all keys must map to the same key slot"

/-- `DABRedisCluster.mget`: run the inherited atomic `mget` (its outcome
is `batch`); on a `RedisClusterException` whose text contains the slot
marker, return the inherited `mget_nonatomic` (outcome `nonatomic`); any
other exception is re-raised. -/
def dabMget {α : Type} (batch nonatomic : Except PyExc α) : Except PyExc α :=
  match batch with
  | .ok v => .ok v
  | .error (.redisClusterExc m) =>
    if strContains m mgetSlotErrMsg then nonatomic
    else .error (.redisClusterExc m)
  | .error e => .error e

/-- The spec's fallback condition, stated in its own words: the batch
fetch raised a cluster exception whose message indicates the keys map to
different slots. -/
def specCrossSlotError {α : Type} : Except PyExc α → Bool
  | .error (.redisClusterExc m) => strContains m mgetSlotErrMsg
  | _ => false

/-! ### Dictionary lemmas -/

theorem getKV_setKV (m : Kwargs) (k1 k2 : String) (v : PyVal) :
    getKV (setKV m k1 v) k2 = if k1 = k2 then some v else getKV m k2 := by
  induction m with
  | nil => simp [setKV, getKV]
  | cons p rest ih =>
    obtain ⟨a, b⟩ := p
    simp only [setKV]
    by_cases h1 : a = k1 <;> by_cases h2 : a = k2 <;>
      simp_all [getKV]
    rw [if_neg (fun h => h1 h.symm)]

theorem getKV_popKV (m : Kwargs) (k1 k2 : String) :
    getKV (popKV m k1) k2 = if k1 = k2 then none else getKV m k2 := by
  induction m with
  | nil => simp [popKV, getKV]
  | cons p rest ih =>
    obtain ⟨a, b⟩ := p
    simp only [popKV, List.filter_cons] at ih ⊢
    by_cases h1 : a = k1 <;> by_cases h2 : a = k2 <;>
      simp_all [getKV]
    intro h
    exact h1 h.symm

/-! ### Query-fold lemmas -/

theorem getKV_qsFold_notmem (l : List (String × List String)) (k0 : Kwargs)
    (key : String) (h : key ∉ l.map Prod.fst) :
    getKV (l.foldl (fun m pr => setKV m pr.1 (.str (pr.2.getLastD ""))) k0) key
      = getKV k0 key := by
  induction l generalizing k0 with
  | nil => rfl
  | cons p rest ih =>
    simp only [List.map_cons, List.mem_cons, not_or] at h
    simp only [List.foldl_cons]
    rw [ih _ h.2, getKV_setKV, if_neg (fun he => h.1 he.symm)]

theorem getKV_qsFold_mem (l : List (String × List String)) (k0 : Kwargs)
    (key : String) (vs : List String) (hnd : (l.map Prod.fst).Nodup)
    (hmem : (key, vs) ∈ l) :
    getKV (l.foldl (fun m pr => setKV m pr.1 (.str (pr.2.getLastD ""))) k0) key
      = some (.str (vs.getLastD "")) := by
  induction l generalizing k0 with
  | nil => cases hmem
  | cons p rest ih =>
    simp only [List.map_cons, List.nodup_cons] at hnd
    rcases List.mem_cons.mp hmem with heq | htail
    · subst heq
      simp only [List.foldl_cons]
      rw [getKV_qsFold_notmem _ _ _ hnd.1, getKV_setKV, if_pos rfl]
    · have hne : p.1 ≠ key := by
        intro he
        exact hnd.1 (he ▸ (List.mem_map.mpr ⟨(key, vs), htail, rfl⟩))
      simp only [List.foldl_cons]
      exact ih _ hnd.2 htail

/-! ### First-occurrence key lemmas -/

theorem mem_firstOccurAux (l : List String) (seen : List String) (x : String) :
    x ∈ firstOccurAux l seen ↔ x ∈ l ∧ x ∉ seen := by
  induction l generalizing seen with
  | nil => simp [firstOccurAux]
  | cons y ys ih =>
    simp only [firstOccurAux]
    by_cases hy : y ∈ seen
    · rw [if_pos hy, ih]
      constructor
      · rintro ⟨hmem, hnot⟩
        exact ⟨List.mem_cons_of_mem _ hmem, hnot⟩
      · rintro ⟨hmem, hnot⟩
        rcases List.mem_cons.mp hmem with rfl | h
        · exact absurd hy hnot
        · exact ⟨h, hnot⟩
    · rw [if_neg hy]
      simp only [List.mem_cons, ih, List.mem_cons, not_or]
      constructor
      · rintro (rfl | ⟨hmem, hn1, hn2⟩)
        · exact ⟨Or.inl rfl, hy⟩
        · exact ⟨Or.inr hmem, hn2⟩
      · rintro ⟨rfl | hmem, hns⟩
        · exact Or.inl rfl
        · by_cases hxy : x = y
          · exact Or.inl hxy
          · exact Or.inr ⟨hmem, fun h => hxy h, hns⟩

theorem nodup_firstOccurAux (l : List String) (seen : List String) :
    (firstOccurAux l seen).Nodup := by
  induction l generalizing seen with
  | nil => exact List.nodup_nil
  | cons y ys ih =>
    simp only [firstOccurAux]
    by_cases hy : y ∈ seen
    · rw [if_pos hy]; exact ih seen
    · rw [if_neg hy]
      refine List.nodup_cons.mpr ⟨?_, ih (y :: seen)⟩
      intro hmem
      exact ((mem_firstOccurAux _ _ _).mp hmem).2 (List.mem_cons_self _ _)

theorem mem_qsKeys (ps : List (String × String)) (x : String) :
    x ∈ qsKeys ps ↔ x ∈ ps.map Prod.fst := by
  rw [qsKeys, mem_firstOccurAux]
  simp

theorem parseQs_keys (q : String) :
    (parseQs q).map Prod.fst = qsKeys (parseQsl q) := by
  simp only [parseQs, List.map_map]
  induction qsKeys (parseQsl q) with
  | nil => rfl
  | cons a l ih => simpa using ih

theorem getKV_applyQuery_notmem (k : Kwargs) (q : String) (key : String)
    (h : key ∉ (parseQsl q).map Prod.fst) :
    getKV (applyQuery k q) key = getKV k key := by
  apply getKV_qsFold_notmem
  rw [parseQs_keys, mem_qsKeys]
  exact h

theorem getKV_applyQuery_mem (k : Kwargs) (q : String) (key : String)
    (h : key ∈ (parseQsl q).map Prod.fst) :
    getKV (applyQuery k q) key
      = some (.str ((valuesFor (parseQsl q) key).getLastD "")) := by
  apply getKV_qsFold_mem
  · rw [parseQs_keys]
    exact nodup_firstOccurAux _ _
  · exact List.mem_map.mpr ⟨key, (mem_qsKeys _ _).mpr h, rfl⟩

/-! ### Heap lemmas -/

theorem heapGetD_append_self (h : List Kwargs) (v : Kwargs) :
    heapGetD (h ++ [v]) h.length = v := by
  induction h with
  | nil => rfl
  | cons a t ih => simp [heapGetD, List.get?]

theorem heapSet_append_self (h : List Kwargs) (v w : Kwargs) :
    heapSet (h ++ [v]) h.length w = h ++ [w] := by
  induction h with
  | nil => rfl
  | cons a t ih => simp [heapSet, List.set]

theorem heapGetD_append_ne (h : List Kwargs) (v : Kwargs) (r : Nat)
    (hne : r ≠ h.length) : heapGetD (h ++ [v]) r = heapGetD h r := by
  induction h generalizing r with
  | nil =>
    match r, hne with
    | n + 1, _ => simp [heapGetD, List.get?]
  | cons a t ih =>
    match r with
    | 0 => rfl
    | n + 1 =>
      simp only [List.length_cons, Nat.succ_ne_succ] at hne
      simpa [heapGetD, List.get?] using ih n hne

/-! ### Error-shape lemmas -/

theorem urlPortE_error_shape (p : UrlParts) (e : PyErr)
    (he : urlPortE p = .error e) : ∃ m, e = .valueError m := by
  unfold urlPortE at he
  split at he
  · cases he
  · split at he
    · simp only at he
      split at he
      · cases he
      · exact ⟨_, ((Except.error.injEq _ _).mp he).symm⟩
    · exact ⟨_, ((Except.error.injEq _ _).mp he).symm⟩

theorem netlocCheckE_error_shape (nl : List Char) (e : PyErr)
    (he : netlocCheckE nl = .error e) : ∃ m, e = .valueError m := by
  simp only [netlocCheckE] at he
  split at he
  · exact ⟨_, ((Except.error.injEq _ _).mp he).symm⟩
  · split at he
    · split at he
      · cases he
      · exact ⟨_, ((Except.error.injEq _ _).mp he).symm⟩
    · cases he

theorem pyUrlparseE_error_shape (url : String) (e : PyErr)
    (he : pyUrlparseE url = .error e) : ∃ m, e = .valueError m := by
  simp only [pyUrlparseE] at he
  cases hn : netlocCheckE (pyUrlparse url).netloc.data with
  | error e2 =>
    rw [hn] at he
    simp only [Except.error.injEq] at he
    subst he
    exact netlocCheckE_error_shape _ _ hn
  | ok u => rw [hn] at he; cases he

theorem applyUrl_error_shape (k : Kwargs) (p : UrlParts) (e : PyErr)
    (he : applyUrl k p = .error e)
    (hs : p.scheme = "file" ∨ p.scheme = "unix" ∨ p.scheme = "redis" ∨
          p.scheme = "rediss") :
    ∃ m, e = .valueError m := by
  unfold applyUrl at he
  split at he
  · cases he
  · split at he
    · cases hport : urlPortE p with
      | error e2 =>
        rw [hport] at he
        simp only [Except.error.injEq] at he
        subst he
        exact urlPortE_error_shape p _ hport
      | ok po =>
        rw [hport] at he
        simp at he
    · rename_i hn1 hn2
      rcases hs with h | h | h | h
      · exact absurd (Or.inl h) hn1
      · exact absurd (Or.inr h) hn1
      · exact absurd (Or.inl h) hn2
      · exact absurd (Or.inr h) hn2

theorem sslCheckOne_error_shape (k : Kwargs) (r : PyVal → Bool)
    (fs : String) (e : PyErr) (he : sslCheckOne k r fs = .error e) :
    e = .improperlyConfigured (mkSslMsg ((getKV k fs).getD .none) fs) := by
  simp only [sslCheckOne] at he
  split at he
  · exact ((Except.error.injEq _ _).mp he).symm
  · cases he

theorem sslCheckFiles_error_shape (k : Kwargs) (r : PyVal → Bool)
    (l : List String) (e : PyErr) (he : sslCheckFiles k r l = .error e) :
    ∃ f fs, e = .improperlyConfigured (mkSslMsg f fs) := by
  induction l with
  | nil => cases he
  | cons fs rest ih =>
    unfold sslCheckFiles at he
    cases hone : sslCheckOne k r fs with
    | error e2 =>
      rw [hone] at he
      simp only [Except.error.injEq] at he
      subst he
      exact ⟨_, fs, sslCheckOne_error_shape k r fs _ hone⟩
    | ok u =>
      rw [hone] at he
      simp only at he
      exact ih he

theorem sslCheck_error_shape (k : Kwargs) (r : PyVal → Bool) (e : PyErr)
    (he : sslCheck k r = .error e) :
    ∃ f fs, e = .improperlyConfigured (mkSslMsg f fs) := by
  unfold sslCheck at he
  split at he
  · exact sslCheckFiles_error_shape _ _ _ _ he
  · cases he

theorem parseClusterHostsGo_error_shape (l : List String)
    (acc : List (String × Int)) (e : PyErr)
    (he : parseClusterHostsGo l acc = .error e) :
    e = .improperlyConfigured clusterHostsErrMsg := by
  induction l generalizing acc with
  | nil => cases he
  | cons hp rest ih =>
    unfold parseClusterHostsGo at he
    split at he
    · split at he
      · exact ih _ he
      · exact ((Except.error.injEq _ _).mp he).symm
    · exact ((Except.error.injEq _ _).mp he).symm

theorem clusterStepK_error_shape (opts k : Kwargs) (e : PyErr)
    (he : (clusterStepK opts k).1 = .error e) :
    e = .improperlyConfigured clusterHostsErrMsg := by
  simp only [clusterStepK] at he
  split at he
  · split at he
    · split at he
      · rename_i s heqstr
        cases hp : parseClusterHosts s with
        | ok ns =>
          rw [hp] at he
          simp at he
        | error e2 =>
          rw [hp] at he
          simp only [Except.error.injEq] at he
          subst he
          exact parseClusterHostsGo_error_shape _ _ _ hp
      · simp only [Except.error.injEq] at he
        subst he
        rfl
    · simp at he
  · simp at he

theorem mkSslMsg_ne_schemeErrMsg (f : PyVal) (fs : String) :
    mkSslMsg f fs ≠ schemeErrMsg := by
  intro h
  have h1 : (mkSslMsg f fs).data.head? = some 'U' := rfl
  rw [h] at h1
  exact absurd h1 (by decide)

/-! ### Success-shape lemmas -/

theorem connect_ok_destruct (opts : Kwargs) (url : String) (r : PyVal → Bool)
    (h : Handle) (hok : connect opts url r = .ok h) :
    ∃ k, buildKwargs opts url = .ok k ∧ sslCheck k r = .ok () ∧
      (clusterStepK opts k).1 = .ok h := by
  unfold connect at hok
  cases hb : buildKwargs opts url with
  | error e => rw [hb] at hok; cases hok
  | ok k =>
    rw [hb] at hok
    simp only at hok
    cases hc : sslCheck k r with
    | error e => rw [hc] at hok; cases hok
    | ok u =>
      rw [hc] at hok
      simp only at hok
      exact ⟨k, rfl, by rw [hc], hok⟩

theorem buildKwargs_ok_destruct (opts : Kwargs) (url : String) (k : Kwargs)
    (hb : buildKwargs opts url = .ok k) :
    ∃ k1, pyUrlparseE url = .ok (pyUrlparse url) ∧
      applyUrl (popKV (popKV opts "clustered") "clustered_hosts")
        (pyUrlparse url) = .ok k1 ∧
      k = applyQuery k1 (pyUrlparse url).query := by
  simp only [buildKwargs] at hb
  cases hp : pyUrlparseE url with
  | error e => rw [hp] at hb; cases hb
  | ok p =>
    have hpp : p = pyUrlparse url := by
      simp only [pyUrlparseE] at hp
      cases hn : netlocCheckE (pyUrlparse url).netloc.data with
      | error e => rw [hn] at hp; cases hp
      | ok u =>
        rw [hn] at hp
        simp only [Except.ok.injEq] at hp
        exact hp.symm
    subst hpp
    rw [hp] at hb
    simp only at hb
    cases ha : applyUrl (popKV (popKV opts "clustered") "clustered_hosts")
        (pyUrlparse url) with
    | error e => rw [ha] at hb; cases hb
    | ok k1 =>
      rw [ha] at hb
      simp only [Except.ok.injEq] at hb
      exact ⟨k1, rfl, rfl, hb.symm⟩

theorem clusterStepK_ok_clustered (opts k : Kwargs) (s : String)
    (ns : List (String × Int))
    (hcl : pyTruthy (clusteredOf opts) = true)
    (hh : clusteredHostsOf opts = .str s)
    (hs : s ≠ "")
    (hns : parseClusterHosts s = .ok ns) :
    (clusterStepK opts k).1
      = .ok (.cluster (setKV (popKV (popKV k "host") "port")
          "startup_nodes" (.nodes ns))) := by
  have ht : pyTruthy (PyVal.str s) = true := by
    simp [pyTruthy, hs]
  simp only [clusterStepK, if_pos hcl, hh, if_pos ht, hns]

theorem clusterStepK_kwargs_get (opts k : Kwargs) (h : Handle) (key : String)
    (hok : (clusterStepK opts k).1 = .ok h)
    (hk1 : key ≠ "host") (hk2 : key ≠ "port") (hk3 : key ≠ "startup_nodes") :
    getKV h.kwargs key = getKV k key := by
  simp only [clusterStepK] at hok
  split at hok
  · split at hok
    · split at hok
      · rename_i s heqstr
        cases hp : parseClusterHosts s with
        | error e2 => rw [hp] at hok; cases hok
        | ok ns =>
          rw [hp] at hok
          simp only [Except.ok.injEq] at hok
          subst hok
          simp only [Handle.kwargs]
          rw [getKV_setKV, if_neg (fun hk => hk3 hk.symm),
            getKV_popKV, if_neg (fun hk => hk2 hk.symm),
            getKV_popKV, if_neg (fun hk => hk1 hk.symm)]
      · cases hok
    · simp only [Except.ok.injEq] at hok
      subst hok
      rfl
  · simp only [Except.ok.injEq] at hok
    subst hok
    rfl

theorem clusterStepK_kwargs_hostport (opts k : Kwargs) (h : Handle)
    (hok : (clusterStepK opts k).1 = .ok h)
    (hhost : getKV k "host" = none) (hport : getKV k "port" = none) :
    getKV h.kwargs "host" = none ∧ getKV h.kwargs "port" = none := by
  simp only [clusterStepK] at hok
  split at hok
  · split at hok
    · split at hok
      · rename_i s heqstr
        cases hp : parseClusterHosts s with
        | error e2 => rw [hp] at hok; cases hok
        | ok ns =>
          rw [hp] at hok
          simp only [Except.ok.injEq] at hok
          subst hok
          simp only [Handle.kwargs]
          constructor
          · rw [getKV_setKV, if_neg (by decide),
              getKV_popKV, if_neg (by decide), getKV_popKV, if_pos rfl]
          · rw [getKV_setKV, if_neg (by decide),
              getKV_popKV, if_pos rfl]
      · cases hok
    · simp only [Except.ok.injEq] at hok
      subst hok
      exact ⟨hhost, hport⟩
  · simp only [Except.ok.injEq] at hok
    subst hok
    exact ⟨hhost, hport⟩

/-! ### URL-step get lemmas -/

theorem getKV_urlStepHost (k : Kwargs) (p : UrlParts) (key : String) :
    getKV (urlStepHost k p) key =
      if key = "host" then
        match urlHostname p with
        | some hn => some (.str hn)
        | none => getKV k "host"
      else getKV k key := by
  unfold urlStepHost
  cases urlHostname p with
  | some hn =>
    dsimp only
    rw [getKV_setKV]
    by_cases hk : key = "host"
    · rw [if_pos hk, if_pos hk.symm]
    · rw [if_neg hk, if_neg (fun h => hk h.symm)]
  | none =>
    dsimp only
    by_cases hk : key = "host"
    · rw [if_pos hk, hk]
    · rw [if_neg hk]

theorem getKV_urlStepPort (k : Kwargs) (po : Option Int) (key : String) :
    getKV (urlStepPort k po) key =
      if key = "port" then
        match po with
        | some n => if n = 0 then getKV k "port" else some (.int n)
        | none => getKV k "port"
      else getKV k key := by
  unfold urlStepPort
  cases po with
  | some n =>
    dsimp only
    by_cases hn : n = 0
    · rw [if_pos hn]
      by_cases hk : key = "port"
      · rw [if_pos hk, if_pos hn, hk]
      · rw [if_neg hk]
    · rw [if_neg hn, getKV_setKV]
      by_cases hk : key = "port"
      · rw [if_pos hk, if_pos hk.symm, if_neg hn]
      · rw [if_neg hk, if_neg (fun h => hk h.symm)]
  | none =>
    dsimp only
    by_cases hk : key = "port"
    · rw [if_pos hk, hk]
    · rw [if_neg hk]

theorem getKV_urlStepUser (k : Kwargs) (p : UrlParts) (key : String) :
    getKV (urlStepUser k p) key =
      if key = "username" then
        match urlUsername p with
        | some u => if u = "" then getKV k "username" else some (.str u)
        | none => getKV k "username"
      else getKV k key := by
  unfold urlStepUser
  cases urlUsername p with
  | some u =>
    dsimp only
    by_cases hu : u = ""
    · rw [if_pos hu]
      by_cases hk : key = "username"
      · rw [if_pos hk, if_pos hu, hk]
      · rw [if_neg hk]
    · rw [if_neg hu, getKV_setKV]
      by_cases hk : key = "username"
      · rw [if_pos hk, if_pos hk.symm, if_neg hu]
      · rw [if_neg hk, if_neg (fun h => hk h.symm)]
  | none =>
    dsimp only
    by_cases hk : key = "username"
    · rw [if_pos hk, hk]
    · rw [if_neg hk]

theorem getKV_urlStepPass (k : Kwargs) (p : UrlParts) (key : String) :
    getKV (urlStepPass k p) key =
      if key = "password" then
        match urlPassword p with
        | some pw => if pw = "" then getKV k "password" else some (.str pw)
        | none => getKV k "password"
      else getKV k key := by
  unfold urlStepPass
  cases urlPassword p with
  | some pw =>
    dsimp only
    by_cases hu : pw = ""
    · rw [if_pos hu]
      by_cases hk : key = "password"
      · rw [if_pos hk, if_pos hu, hk]
      · rw [if_neg hk]
    · rw [if_neg hu, getKV_setKV]
      by_cases hk : key = "password"
      · rw [if_pos hk, if_pos hk.symm, if_neg hu]
      · rw [if_neg hk, if_neg (fun h => hk h.symm)]
  | none =>
    dsimp only
    by_cases hk : key = "password"
    · rw [if_pos hk, hk]
    · rw [if_neg hk]

theorem getKV_urlStepDb (k : Kwargs) (path : String) (key : String) :
    getKV (urlStepDb k path) key =
      if key = "db" then
        match pathDb path with
        | some n => some (.int n)
        | none => getKV k "db"
      else getKV k key := by
  unfold urlStepDb
  cases pathDb path with
  | some n =>
    dsimp only
    rw [getKV_setKV]
    by_cases hk : key = "db"
    · rw [if_pos hk, if_pos hk.symm]
    · rw [if_neg hk, if_neg (fun h => hk h.symm)]
  | none =>
    dsimp only
    by_cases hk : key = "db"
    · rw [if_pos hk, hk]
    · rw [if_neg hk]

theorem applyUrl_redis_ok (k : Kwargs) (p : UrlParts) (k' : Kwargs)
    (hs : p.scheme = "redis" ∨ p.scheme = "rediss")
    (hok : applyUrl k p = .ok k') :
    ∃ po, urlPortE p = .ok po ∧
      k' = urlStepDb
        (urlStepPass (urlStepUser (urlStepPort (urlStepHost k p) po) p) p)
        p.path := by
  unfold applyUrl at hok
  have hnfu : ¬(p.scheme = "file" ∨ p.scheme = "unix") := by
    rcases hs with h | h <;> rw [h] <;> decide
  rw [if_neg hnfu, if_pos hs] at hok
  cases hport : urlPortE p with
  | error e => rw [hport] at hok; cases hok
  | ok po =>
    rw [hport] at hok
    simp only [Except.ok.injEq] at hok
    exact ⟨po, rfl, hok.symm⟩

theorem applyUrl_unix_ok (k : Kwargs) (p : UrlParts) (k' : Kwargs)
    (hs : p.scheme = "file" ∨ p.scheme = "unix")
    (hok : applyUrl k p = .ok k') :
    k' = setKV k "unix_socket_path" (.str p.path) := by
  unfold applyUrl at hok
  rw [if_pos hs] at hok
  exact ((Except.ok.injEq _ _).mp hok).symm

/-! ### Cluster-hosts parse lemmas -/

theorem parseClusterHostsGo_ok_all_good (l : List String)
    (acc ns : List (String × Int))
    (hok : parseClusterHostsGo l acc = .ok ns) :
    ∀ t ∈ l, goodToken t = true := by
  induction l generalizing acc with
  | nil => intro t ht; cases ht
  | cons hp rest ih =>
    intro t ht
    unfold parseClusterHostsGo at hok
    rcases List.mem_cons.mp ht with rfl | hmem
    · unfold goodToken
      split at hok
      · split at hok
        · simp_all
        · cases hok
      · cases hok
    · split at hok
      · split at hok
        · exact ih _ hok t hmem
        · cases hok
      · cases hok

theorem clusterStepK_parse_error (opts k : Kwargs) (s : String) (e : PyErr)
    (hcl : pyTruthy (clusteredOf opts) = true)
    (hh : clusteredHostsOf opts = .str s)
    (hs : s ≠ "")
    (herr : parseClusterHosts s = .error e) :
    (clusterStepK opts k).1 = .error e := by
  have ht : pyTruthy (PyVal.str s) = true := by
    simp [pyTruthy, hs]
  simp only [clusterStepK, if_pos hcl, hh, if_pos ht, herr]

theorem clusterStepK_nonstring (opts k : Kwargs) (v : PyVal)
    (hcl : pyTruthy (clusteredOf opts) = true)
    (hh : clusteredHostsOf opts = v)
    (ht : pyTruthy v = true)
    (hns : ∀ s, v ≠ .str s) :
    (clusterStepK opts k).1 = .error (.improperlyConfigured clusterHostsErrMsg) := by
  have ht2 : pyTruthy (clusteredHostsOf opts) = true := by rw [hh]; exact ht
  simp only [clusterStepK, if_pos hcl, if_pos ht2, hh]
  cases v with
  | str s => exact absurd rfl (hns s)
  | int n => rw [if_pos ht]
  | bool b => rw [if_pos ht]
  | none => rw [if_pos ht]
  | nodes ns => rw [if_pos ht]

/-! ### Claim theorems -/

/-- C1: for every multi-key get on a cluster client handle, the atomic
batch fetch is attempted first; if and only if the underlying library
raises a cluster exception whose message indicates the keys map to
different slots (`specCrossSlotError`), the call transparently returns
the result of the non-atomic per-slot fan-out variant; every other
outcome of the batch fetch — a success, a cluster exception without the
slot text, or any other exception — is returned/propagated unchanged. -/
theorem claim_C1_mget_cross_slot_fallback {α : Type}
    (batch nonatomic : Except PyExc α) :
    dabMget batch nonatomic =
      if specCrossSlotError batch = true then nonatomic else batch := by
  unfold dabMget specCrossSlotError
  cases batch with
  | ok v => rfl
  | error e =>
    cases e with
    | redisClusterExc m =>
      by_cases h : strContains m mgetSlotErrMsg = true
      · rw [if_pos h]
        simp only [h, if_true]
      · rw [if_neg h]
        simp only [Bool.not_eq_true] at h
        simp only [h, Bool.false_eq_true, if_false]
    | otherExc kind m => rfl

/-- C4 counterexample: for the URL `foo://[x` — whose scheme `foo` is
outside the accepted set — `connect` does not fail with the scheme
`ImproperlyConfigured`: `urlparse` itself raises
`ValueError("Invalid IPv6 URL")` for the unbalanced bracket in the
netloc, and that error propagates instead. -/
theorem claim_C4_counterexample :
    connect [] "foo://[x" (fun _ => true)
      = .error (.valueError "Invalid IPv6 URL") ∧
    (PyErr.valueError "Invalid IPv6 URL"
      ≠ .improperlyConfigured schemeErrMsg) ∧
    (pyUrlparse "foo://[x").scheme
      ∉ (["file", "unix", "redis", "rediss"] : List String) := by
  decide

/-- C4 (amended): whenever the URL parses — `urlparse` itself may raise
a `ValueError`, e.g. for a netloc with unbalanced brackets, and that
error propagates unchanged (third conjunct) — a scheme outside
`{file, unix, redis, rediss}` makes `connect` fail with the
`ImproperlyConfigured` naming the accepted schemes; for schemes inside
that set the scheme error is never raised. -/
theorem claim_C4_amended (opts : Kwargs) (url : String)
    (r : PyVal → Bool) :
    ((∃ p, pyUrlparseE url = .ok p) →
      (pyUrlparse url).scheme ∉ (["file", "unix", "redis", "rediss"] : List String) →
      connect opts url r = .error (.improperlyConfigured schemeErrMsg)) ∧
    ((pyUrlparse url).scheme ∈ (["file", "unix", "redis", "rediss"] : List String) →
      connect opts url r ≠ .error (.improperlyConfigured schemeErrMsg)) ∧
    (∀ e, pyUrlparseE url = .error e → connect opts url r = .error e) := by
  refine ⟨?_, ?_, ?_⟩
  · rintro ⟨p, hp⟩ hns
    simp only [List.mem_cons, List.mem_singleton, not_or] at hns
    obtain ⟨hn1, hn2, hn3, hn4⟩ := hns
    have hpp : pyUrlparseE url = .ok (pyUrlparse url) := by
      simp only [pyUrlparseE] at hp ⊢
      cases hn : netlocCheckE (pyUrlparse url).netloc.data with
      | error e => rw [hn] at hp; cases hp
      | ok u => rfl
    have ha : applyUrl (popKV (popKV opts "clustered") "clustered_hosts")
        (pyUrlparse url) = .error (.improperlyConfigured schemeErrMsg) := by
      unfold applyUrl
      rw [if_neg (by tauto), if_neg (by tauto)]
    unfold connect buildKwargs
    simp only [hpp, ha]
  · intro hmem heq
    have hs4 : (pyUrlparse url).scheme = "file" ∨ (pyUrlparse url).scheme = "unix" ∨
        (pyUrlparse url).scheme = "redis" ∨ (pyUrlparse url).scheme = "rediss" := by
      simpa using hmem
    unfold connect at heq
    cases hb : buildKwargs opts url with
    | error e =>
      rw [hb] at heq
      simp only [Except.error.injEq] at heq
      subst heq
      simp only [buildKwargs] at hb
      cases hp : pyUrlparseE url with
      | error e2 =>
        rw [hp] at hb
        simp only [Except.error.injEq] at hb
        subst hb
        obtain ⟨m, hm⟩ := pyUrlparseE_error_shape _ _ hp
        cases hm
      | ok p =>
        have hpp : p = pyUrlparse url := by
          simp only [pyUrlparseE] at hp
          cases hn : netlocCheckE (pyUrlparse url).netloc.data with
          | error e3 => rw [hn] at hp; cases hp
          | ok u =>
            rw [hn] at hp
            simp only [Except.ok.injEq] at hp
            exact hp.symm
        subst hpp
        rw [hp] at hb
        simp only at hb
        cases ha : applyUrl (popKV (popKV opts "clustered") "clustered_hosts")
            (pyUrlparse url) with
        | error e2 =>
          rw [ha] at hb
          simp only [Except.error.injEq] at hb
          subst hb
          obtain ⟨m, hm⟩ := applyUrl_error_shape _ _ _ ha hs4
          cases hm
        | ok k1 =>
          rw [ha] at hb
          cases hb
    | ok k =>
      rw [hb] at heq
      simp only at heq
      cases hc : sslCheck k r with
      | error e =>
        rw [hc] at heq
        simp only [Except.error.injEq] at heq
        subst heq
        obtain ⟨f, fs, hm⟩ := sslCheck_error_shape _ _ _ hc
        have := (PyErr.improperlyConfigured.injEq _ _).mp hm
        exact mkSslMsg_ne_schemeErrMsg f fs this.symm
      | ok u =>
        rw [hc] at heq
        simp only at heq
        have := clusterStepK_error_shape _ _ _ heq
        have hmsg := (PyErr.improperlyConfigured.injEq _ _).mp this
        exact absurd hmsg (by decide)
  · intro e hp
    unfold connect buildKwargs
    simp only [hp]

/-- Witness for C4 (amended) at concrete inputs: `http` is rejected with
the scheme error, a `redis` URL never produces the scheme error, and an
unbalanced bracket propagates `urlparse`'s `ValueError`. -/
theorem claim_C4_amended_witness :
    connect [] "http://x" (fun _ => true)
      = .error (.improperlyConfigured schemeErrMsg) ∧
    connect [] "redis://h/0" (fun _ => true)
      ≠ .error (.improperlyConfigured schemeErrMsg) ∧
    connect [] "redis://[x/0" (fun _ => true)
      = .error (.valueError "Invalid IPv6 URL") :=
  ⟨(claim_C4_amended [] "http://x" (fun _ => true)).1
      ⟨pyUrlparse "http://x", by decide⟩ (by decide),
   (claim_C4_amended [] "redis://h/0" (fun _ => true)).2.1 (by decide),
   (claim_C4_amended [] "redis://[x/0" (fun _ => true)).2.2
      (.valueError "Invalid IPv6 URL") (by decide)⟩

/-- C5: in the `redis`/`rediss` branch of `connect` (lines 59–70), the
working mapping's `db` entry equals the integer value of the first path
segment after the leading `/` (`path.split('/')[1]`) when that segment
exists and parses as a Python integer; when the segment is absent or
fails to parse, the step sets no `db` key — the `db` entry is left
exactly as it was (in particular absent when absent before, not a
default of zero). -/
theorem claim_C5_db_from_path (k : Kwargs) (p : UrlParts) (k' : Kwargs)
    (hs : p.scheme = "redis" ∨ p.scheme = "rediss")
    (hok : applyUrl k p = .ok k') :
    (∀ seg n, (pySplitChar p.path '/').get? 1 = some seg →
      pyInt seg = some n → getKV k' "db" = some (.int n)) ∧
    ((pySplitChar p.path '/').get? 1 = none →
      getKV k' "db" = getKV k "db") ∧
    (∀ seg, (pySplitChar p.path '/').get? 1 = some seg →
      pyInt seg = none → getKV k' "db" = getKV k "db") := by
  obtain ⟨po, hport, rfl⟩ := applyUrl_redis_ok k p k' hs hok
  have hchain :
      getKV (urlStepPass (urlStepUser (urlStepPort (urlStepHost k p) po) p) p)
        "db" = getKV k "db" := by
    rw [getKV_urlStepPass, if_neg (by decide), getKV_urlStepUser,
      if_neg (by decide), getKV_urlStepPort, if_neg (by decide),
      getKV_urlStepHost, if_neg (by decide)]
  refine ⟨?_, ?_, ?_⟩
  · intro seg n h1 h2
    have hdb : pathDb p.path = some n := by
      unfold pathDb
      rw [h1]
      exact h2
    rw [getKV_urlStepDb, if_pos rfl, hdb]
  · intro h1
    have hdb : pathDb p.path = none := by
      unfold pathDb
      rw [h1]
    rw [getKV_urlStepDb, if_pos rfl, hdb]
    exact hchain
  · intro seg h1 h2
    have hdb : pathDb p.path = none := by
      unfold pathDb
      rw [h1]
      exact h2
    rw [getKV_urlStepDb, if_pos rfl, hdb]
    exact hchain

/-- Witness for C5: `redis://h/3` yields `db = 3`, and for a URL with a
non-parsing segment the `db` entry stays as it was (absent). -/
theorem claim_C5_db_from_path_witness :
    getKV [("host", PyVal.str "h"), ("db", PyVal.int 3)] "db"
      = some (PyVal.int 3) ∧
    getKV [("host", PyVal.str "h")] "db" = getKV ([] : Kwargs) "db" :=
  ⟨(claim_C5_db_from_path [] (pyUrlparse "redis://h/3")
      [("host", PyVal.str "h"), ("db", PyVal.int 3)]
      (Or.inl (by decide)) (by decide)).1 "3" 3 (by decide) (by decide),
   (claim_C5_db_from_path [] (pyUrlparse "redis://h/x")
      [("host", PyVal.str "h")]
      (Or.inl (by decide)) (by decide)).2.2 "x" (by decide) (by decide)⟩

/-- C10: in the `redis`/`rediss` branch (lines 61–64), each of `host`,
`port`, `username`, `password` is copied into the working mapping exactly
when the corresponding parsed URL component is truthy (`hostname` is
`None` or non-empty; a port of `0`, an empty username or an empty
password — e.g. `redis://user:@host/` — are falsy); a non-truthy
component leaves any pre-existing entry for that key unchanged. -/
theorem claim_C10_truthy_components (k : Kwargs) (p : UrlParts) (k' : Kwargs)
    (hs : p.scheme = "redis" ∨ p.scheme = "rediss")
    (hok : applyUrl k p = .ok k') :
    ((∀ hn, urlHostname p = some hn → getKV k' "host" = some (.str hn)) ∧
      (urlHostname p = none → getKV k' "host" = getKV k "host")) ∧
    ((∀ n, urlPortE p = .ok (some n) → ¬n = 0 →
        getKV k' "port" = some (.int n)) ∧
      (urlPortE p = .ok none ∨ urlPortE p = .ok (some 0) →
        getKV k' "port" = getKV k "port")) ∧
    ((∀ u, urlUsername p = some u → ¬u = "" →
        getKV k' "username" = some (.str u)) ∧
      (urlUsername p = none ∨ urlUsername p = some "" →
        getKV k' "username" = getKV k "username")) ∧
    ((∀ pw, urlPassword p = some pw → ¬pw = "" →
        getKV k' "password" = some (.str pw)) ∧
      (urlPassword p = none ∨ urlPassword p = some "" →
        getKV k' "password" = getKV k "password")) := by
  obtain ⟨po, hport, rfl⟩ := applyUrl_redis_ok k p k' hs hok
  refine ⟨⟨?_, ?_⟩, ⟨?_, ?_⟩, ⟨?_, ?_⟩, ⟨?_, ?_⟩⟩
  · intro hn hhn
    rw [getKV_urlStepDb, if_neg (by decide), getKV_urlStepPass,
      if_neg (by decide), getKV_urlStepUser, if_neg (by decide),
      getKV_urlStepPort, if_neg (by decide), getKV_urlStepHost,
      if_pos rfl, hhn]
  · intro hhn
    rw [getKV_urlStepDb, if_neg (by decide), getKV_urlStepPass,
      if_neg (by decide), getKV_urlStepUser, if_neg (by decide),
      getKV_urlStepPort, if_neg (by decide), getKV_urlStepHost,
      if_pos rfl, hhn]
  · intro n hn hn0
    have hpo : po = some n := by
      rw [hport] at hn
      exact (Except.ok.injEq _ _).mp hn
    subst hpo
    rw [getKV_urlStepDb, if_neg (by decide), getKV_urlStepPass,
      if_neg (by decide), getKV_urlStepUser, if_neg (by decide),
      getKV_urlStepPort, if_pos rfl]
    simp only [if_neg hn0]
  · intro hor
    have hpo : po = none ∨ po = some 0 := by
      rcases hor with h | h
      · rw [hport] at h
        exact Or.inl ((Except.ok.injEq _ _).mp h)
      · rw [hport] at h
        exact Or.inr ((Except.ok.injEq _ _).mp h)
    have hstep : getKV (urlStepPort (urlStepHost k p) po) "port"
        = getKV (urlStepHost k p) "port" := by
      rcases hpo with rfl | rfl
      · rw [getKV_urlStepPort, if_pos rfl]
      · rw [getKV_urlStepPort, if_pos rfl]
        simp
    rw [getKV_urlStepDb, if_neg (by decide), getKV_urlStepPass,
      if_neg (by decide), getKV_urlStepUser, if_neg (by decide), hstep,
      getKV_urlStepHost, if_neg (by decide)]
  · intro u hu hu0
    rw [getKV_urlStepDb, if_neg (by decide), getKV_urlStepPass,
      if_neg (by decide), getKV_urlStepUser, if_pos rfl, hu]
    simp only [if_neg hu0]
  · intro hor
    have hstep : getKV (urlStepUser (urlStepPort (urlStepHost k p) po) p)
        "username" = getKV (urlStepPort (urlStepHost k p) po) "username" := by
      rcases hor with h | h
      · rw [getKV_urlStepUser, if_pos rfl, h]
      · rw [getKV_urlStepUser, if_pos rfl, h]
        simp
    rw [getKV_urlStepDb, if_neg (by decide), getKV_urlStepPass,
      if_neg (by decide), hstep, getKV_urlStepPort, if_neg (by decide),
      getKV_urlStepHost, if_neg (by decide)]
  · intro pw hpw hpw0
    rw [getKV_urlStepDb, if_neg (by decide), getKV_urlStepPass,
      if_pos rfl, hpw]
    simp only [if_neg hpw0]
  · intro hor
    have hstep : getKV
        (urlStepPass (urlStepUser (urlStepPort (urlStepHost k p) po) p) p)
        "password"
        = getKV (urlStepUser (urlStepPort (urlStepHost k p) po) p)
            "password" := by
      rcases hor with h | h
      · rw [getKV_urlStepPass, if_pos rfl, h]
      · rw [getKV_urlStepPass, if_pos rfl, h]
        simp
    rw [getKV_urlStepDb, if_neg (by decide), hstep, getKV_urlStepUser,
      if_neg (by decide), getKV_urlStepPort, if_neg (by decide),
      getKV_urlStepHost, if_neg (by decide)]

/-- Witness for C10 at `redis://user:@h:0/`: the empty password and the
zero port are not copied (entries unchanged/absent), while the truthy
host and username are. -/
theorem claim_C10_truthy_components_witness :
    getKV [("host", PyVal.str "h"), ("username", PyVal.str "user")] "host"
      = some (PyVal.str "h") ∧
    getKV [("host", PyVal.str "h"), ("username", PyVal.str "user")]
      "password" = getKV ([] : Kwargs) "password" ∧
    getKV [("host", PyVal.str "h"), ("username", PyVal.str "user")] "port"
      = getKV ([] : Kwargs) "port" :=
  ⟨((claim_C10_truthy_components [] (pyUrlparse "redis://user:@h:0/")
      [("host", PyVal.str "h"), ("username", PyVal.str "user")]
      (Or.inl (by decide)) (by decide)).1).1 "h" (by decide),
   ((claim_C10_truthy_components [] (pyUrlparse "redis://user:@h:0/")
      [("host", PyVal.str "h"), ("username", PyVal.str "user")]
      (Or.inl (by decide)) (by decide)).2.2.2).2 (Or.inr (by decide)),
   ((claim_C10_truthy_components [] (pyUrlparse "redis://user:@h:0/")
      [("host", PyVal.str "h"), ("username", PyVal.str "user")]
      (Or.inl (by decide)) (by decide)).2.1).2 (Or.inr (by decide))⟩

/-- C6: for a `unix`/`file` scheme URL, a successful connect returns a
handle whose keyword arguments bind `unix_socket_path` to the URL path,
and the URL handling never sets `host`/`port`: provided the caller's
options do not themselves carry `host`/`port` and the query string does
not smuggle in `host`, `port` or `unix_socket_path` parameters, both keys
are absent from the constructed handle's arguments. -/
theorem claim_C6_unix_socket (opts : Kwargs) (url : String)
    (r : PyVal → Bool) (h : Handle)
    (hs : (pyUrlparse url).scheme = "file" ∨ (pyUrlparse url).scheme = "unix")
    (hh : getKV opts "host" = none) (hp : getKV opts "port" = none)
    (hq1 : "host" ∉ (parseQsl (pyUrlparse url).query).map Prod.fst)
    (hq2 : "port" ∉ (parseQsl (pyUrlparse url).query).map Prod.fst)
    (hq3 : "unix_socket_path" ∉ (parseQsl (pyUrlparse url).query).map Prod.fst)
    (hok : connect opts url r = .ok h) :
    getKV h.kwargs "unix_socket_path"
      = some (.str (pyUrlparse url).path) ∧
    getKV h.kwargs "host" = none ∧ getKV h.kwargs "port" = none := by
  obtain ⟨k, hb, hssl, hcs⟩ := connect_ok_destruct opts url r h hok
  obtain ⟨k1, hpe, ha, hkeq⟩ := buildKwargs_ok_destruct opts url k hb
  have hk1 : k1 = setKV (popKV (popKV opts "clustered") "clustered_hosts")
      "unix_socket_path" (.str (pyUrlparse url).path) :=
    applyUrl_unix_ok _ _ _ hs ha
  have hbase_host : getKV k1 "host" = none := by
    rw [hk1, getKV_setKV, if_neg (by decide), getKV_popKV,
      if_neg (by decide), getKV_popKV, if_neg (by decide)]
    exact hh
  have hbase_port : getKV k1 "port" = none := by
    rw [hk1, getKV_setKV, if_neg (by decide), getKV_popKV,
      if_neg (by decide), getKV_popKV, if_neg (by decide)]
    exact hp
  have hbase_usp : getKV k1 "unix_socket_path"
      = some (.str (pyUrlparse url).path) := by
    rw [hk1, getKV_setKV, if_pos rfl]
  have hk_usp : getKV k "unix_socket_path"
      = some (.str (pyUrlparse url).path) := by
    rw [hkeq, getKV_applyQuery_notmem _ _ _ hq3]
    exact hbase_usp
  have hk_host : getKV k "host" = none := by
    rw [hkeq, getKV_applyQuery_notmem _ _ _ hq1]
    exact hbase_host
  have hk_port : getKV k "port" = none := by
    rw [hkeq, getKV_applyQuery_notmem _ _ _ hq2]
    exact hbase_port
  have husp : getKV h.kwargs "unix_socket_path"
      = some (.str (pyUrlparse url).path) := by
    rw [clusterStepK_kwargs_get opts k h _ hcs (by decide) (by decide)
      (by decide)]
    exact hk_usp
  have hhp := clusterStepK_kwargs_hostport opts k h hcs hk_host hk_port
  exact ⟨husp, hhp.1, hhp.2⟩

/-- Witness for C6 at `unix:///var/run/redis.sock` with empty options. -/
theorem claim_C6_unix_socket_witness :
    getKV (Handle.standalone
        [("unix_socket_path", PyVal.str "/var/run/redis.sock")]).kwargs
      "unix_socket_path" = some (PyVal.str "/var/run/redis.sock") ∧
    getKV (Handle.standalone
        [("unix_socket_path", PyVal.str "/var/run/redis.sock")]).kwargs
      "host" = none ∧
    getKV (Handle.standalone
        [("unix_socket_path", PyVal.str "/var/run/redis.sock")]).kwargs
      "port" = none :=
  claim_C6_unix_socket [] "unix:///var/run/redis.sock" (fun _ => true)
    (Handle.standalone [("unix_socket_path", PyVal.str "/var/run/redis.sock")])
    (Or.inr (by decide)) (by decide) (by decide) (by decide) (by decide)
    (by decide) (by decide)

/-- C2: a connect call with truthy `clustered` and a non-empty
well-formed `clusteredHosts` string that returns a handle returns a
cluster handle whose keyword arguments have `host` and `port` removed and
carry the parsed node list (in token order) under `startup_nodes` — even
when the URL supplied a host; and `"a:1,b:2"` parses to the ordered node
list `[(a,1), (b,2)]`. -/
theorem claim_C2_clustered_hosts (opts : Kwargs) (url : String)
    (r : PyVal → Bool) (s : String) (ns : List (String × Int)) (h : Handle)
    (hcl : pyTruthy (clusteredOf opts) = true)
    (hh : clusteredHostsOf opts = .str s)
    (hs : s ≠ "")
    (hns : parseClusterHosts s = .ok ns)
    (hok : connect opts url r = .ok h) :
    (∃ k, h = .cluster k ∧ getKV k "host" = none ∧ getKV k "port" = none ∧
      getKV k "startup_nodes" = some (.nodes ns)) ∧
    parseClusterHosts "a:1,b:2"
      = .ok [mkClusterNode "a" 1, mkClusterNode "b" 2] := by
  obtain ⟨k, hb, hssl, hcs⟩ := connect_ok_destruct opts url r h hok
  have hcs2 := clusterStepK_ok_clustered opts k s ns hcl hh hs hns
  rw [hcs] at hcs2
  have hval := (Except.ok.injEq _ _).mp hcs2
  refine ⟨⟨setKV (popKV (popKV k "host") "port") "startup_nodes" (.nodes ns),
    hval, ?_, ?_, ?_⟩, by decide⟩
  · rw [getKV_setKV, if_neg (by decide), getKV_popKV, if_neg (by decide),
      getKV_popKV, if_pos rfl]
  · rw [getKV_setKV, if_neg (by decide), getKV_popKV, if_pos rfl]
  · rw [getKV_setKV, if_pos rfl]

/-- Witness for C2 at a URL that supplies a host: the returned handle is
a cluster handle seeded with the parsed node list and no host/port. -/
theorem claim_C2_clustered_hosts_witness :
    ∃ k, Handle.cluster
        [("db", PyVal.int 0),
         ("startup_nodes", PyVal.nodes [("a", 1), ("b", 2)])]
        = .cluster k ∧
      getKV k "host" = none ∧ getKV k "port" = none ∧
      getKV k "startup_nodes" = some (.nodes [("a", 1), ("b", 2)]) :=
  (claim_C2_clustered_hosts
    [("clustered", PyVal.bool true), ("clustered_hosts", PyVal.str "a:1,b:2")]
    "redis://localhost:6379/0" (fun _ => true) "a:1,b:2" [("a", 1), ("b", 2)]
    (Handle.cluster
      [("db", PyVal.int 0),
       ("startup_nodes", PyVal.nodes [("a", 1), ("b", 2)])])
    (by decide) (by decide) (by decide) (by decide) (by decide)).1

/-- C3 counterexample: for `clusteredHosts = "a:1,bad"` the call does
fail with an `ImproperlyConfigured`, but its message is the fixed generic
text `clusterHostsErrMsg`, which does not contain the offending token
`"bad"` (nor `"a:1,bad"`): the error message does not identify the
offending token — only the error log does. -/
theorem claim_C3_counterexample :
    connect [("clustered", PyVal.bool true),
        ("clustered_hosts", PyVal.str "a:1,bad")]
      "redis://localhost/0" (fun _ => true)
      = .error (.improperlyConfigured clusterHostsErrMsg) ∧
    strContains clusterHostsErrMsg "bad" = false ∧
    strContains clusterHostsErrMsg "a:1,bad" = false := by
  decide

/-- C3 (amended): for every truthy string `clusteredHosts` containing a
malformed token (wrong number of colon-separated parts or a non-integer
port), and for every truthy non-string `clusteredHosts` value, the whole
connect call fails immediately with a `ConfigurationError` carrying the
fixed generic message `clusterHostsErrMsg` (the offending token is
reported in the error log, not in the exception message), and no node
list reaches the client. -/
theorem claim_C3_amended (opts : Kwargs) (url : String) (r : PyVal → Bool)
    (k : Kwargs)
    (hb : buildKwargs opts url = .ok k) (hssl : sslCheck k r = .ok ())
    (hcl : pyTruthy (clusteredOf opts) = true) :
    (∀ s, clusteredHostsOf opts = .str s → s ≠ "" →
      (∃ t ∈ pySplitChar s ',', goodToken t = false) →
      connect opts url r
        = .error (.improperlyConfigured clusterHostsErrMsg)) ∧
    (∀ v, clusteredHostsOf opts = v → pyTruthy v = true →
      (∀ s, v ≠ .str s) →
      connect opts url r
        = .error (.improperlyConfigured clusterHostsErrMsg)) := by
  have hconn : connect opts url r = (clusterStepK opts k).1 := by
    unfold connect
    rw [hb]
    simp only
    rw [hssl]
  constructor
  · intro s hhs hne hbad
    rw [hconn]
    cases hres : parseClusterHosts s with
    | ok ns =>
      obtain ⟨t, htmem, htbad⟩ := hbad
      have := parseClusterHostsGo_ok_all_good _ _ _ hres t htmem
      rw [this] at htbad
      cases htbad
    | error e =>
      have hshape := parseClusterHostsGo_error_shape _ _ _ hres
      subst hshape
      exact clusterStepK_parse_error opts k s _ hcl hhs hne hres
  · intro v hhv htv hnstr
    rw [hconn]
    exact clusterStepK_nonstring opts k v hcl hhv htv hnstr

/-- Witness for C3 (amended) at `clusteredHosts = "a:1,bad"`. -/
theorem claim_C3_amended_witness :
    connect [("clustered", PyVal.bool true),
        ("clustered_hosts", PyVal.str "a:1,bad")]
      "redis://localhost/0" (fun _ => true)
      = .error (.improperlyConfigured clusterHostsErrMsg) :=
  (claim_C3_amended
    [("clustered", PyVal.bool true), ("clustered_hosts", PyVal.str "a:1,bad")]
    "redis://localhost/0" (fun _ => true)
    [("host", PyVal.str "localhost"), ("db", PyVal.int 0)]
    (by decide) (by decide) (by decide)).1
    "a:1,bad" (by decide) (by decide)
    ⟨"bad", by decide, by decide⟩

/-- C7 counterexample: for the query string `a=1&a=&b=` the last
occurrence of `a` is the blank `a=`, yet the mapping binds `a` to `"1"`
(the blank occurrence is dropped by `parse_qs`, so the last occurrence
does not win), and the parameter `b`, all of whose occurrences are blank,
is not bound at all. -/
theorem claim_C7_counterexample :
    buildKwargs [] "redis://h/0?a=1&a=&b=" =
      .ok [("host", PyVal.str "h"), ("db", PyVal.int 0),
           ("a", PyVal.str "1")] ∧
    getKV [("host", PyVal.str "h"), ("db", PyVal.int 0),
           ("a", PyVal.str "1")] "a" ≠ some (PyVal.str "") ∧
    getKV [("host", PyVal.str "h"), ("db", PyVal.int 0),
           ("a", PyVal.str "1")] "b" = none := by
  decide

/-- C7 (amended): the query-parameter step (`parse_qs` with default
`keep_blank_values=False`, then `kwargs[key] = value[-1]`) binds every
key that has at least one occurrence of the form `key=value` with a
non-empty value to a single string — the last such non-empty value
(overwrite semantics, not accumulation) — and leaves every other key
(including keys whose occurrences are all blank or lack `=`) unchanged
in the working mapping. -/
theorem claim_C7_amended (k : Kwargs) (q : String) (key : String) :
    (key ∈ (parseQsl q).map Prod.fst →
      getKV (applyQuery k q) key
        = some (.str ((valuesFor (parseQsl q) key).getLastD ""))) ∧
    (key ∉ (parseQsl q).map Prod.fst →
      getKV (applyQuery k q) key = getKV k key) :=
  ⟨getKV_applyQuery_mem k q key, getKV_applyQuery_notmem k q key⟩

/-- Witness for C7 (amended) on `a=1&a=2&a=&b=`: `a` is bound to the
last non-blank value `"2"`, and `b` is unchanged (absent). -/
theorem claim_C7_amended_witness :
    getKV (applyQuery [] "a=1&a=2&a=&b=") "a" = some (PyVal.str "2") ∧
    getKV (applyQuery [] "a=1&a=2&a=&b=") "b" = getKV ([] : Kwargs) "b" := by
  constructor
  · have h := (claim_C7_amended [] "a=1&a=2&a=&b=" "a").1 (by decide)
    rw [h]
    decide
  · exact (claim_C7_amended [] "a=1&a=2&a=&b=" "b").2 (by decide)

/-- C8: with a successfully built working mapping `k`, (i) when the `ssl`
entry is absent or falsy, no readability check occurs — the result of
`connect` does not depend on the file-system oracle at all; (ii) when
`ssl` is truthy and some present (truthy) entry among `ssl_certfile`,
`ssl_keyfile`, `ssl_ca_certs` is unreadable, `connect` fails with an
`ImproperlyConfigured` naming such a file and its setting key. -/
theorem claim_C8_ssl_files (opts : Kwargs) (url : String)
    (r : PyVal → Bool) (k : Kwargs)
    (hb : buildKwargs opts url = .ok k) :
    (pyTruthy ((getKV k "ssl").getD .none) = false →
      ∀ r2, connect opts url r = connect opts url r2) ∧
    (pyTruthy ((getKV k "ssl").getD .none) = true →
      (∃ fs ∈ sslSettings, pyTruthy ((getKV k fs).getD .none) = true ∧
        r ((getKV k fs).getD .none) = false) →
      ∃ fs ∈ sslSettings, pyTruthy ((getKV k fs).getD .none) = true ∧
        r ((getKV k fs).getD .none) = false ∧
        connect opts url r = .error (.improperlyConfigured
          (mkSslMsg ((getKV k fs).getD .none) fs))) := by
  constructor
  · intro hssl r2
    have hok : ∀ r3 : PyVal → Bool, sslCheck k r3 = .ok () := by
      intro r3
      unfold sslCheck
      rw [if_neg (by rw [hssl]; exact Bool.false_ne_true)]
    unfold connect
    rw [hb]
    simp only
    rw [hok r, hok r2]
  · intro hssl hbad
    have hconn : connect opts url r =
        match sslCheck k r with
        | .error e => .error e
        | .ok _ => (clusterStepK opts k).1 := by
      unfold connect
      rw [hb]
    have hfiles : sslCheck k r = sslCheckFiles k r sslSettings := by
      unfold sslCheck
      rw [if_pos hssl]
    set v := fun fs => (getKV k fs).getD PyVal.none with hv
    by_cases b1 : pyTruthy (v "ssl_certfile") && !(r (v "ssl_certfile"))
    · have hone : sslCheckOne k r "ssl_certfile"
          = .error (.improperlyConfigured (mkSslMsg (v "ssl_certfile")
            "ssl_certfile")) := by
        unfold sslCheckOne
        rw [if_pos b1]
      refine ⟨"ssl_certfile", by decide, ?_, ?_, ?_⟩
      · exact (Bool.and_eq_true _ _).mp b1 |>.1
      · have := (Bool.and_eq_true _ _).mp b1 |>.2
        simpa using this
      · rw [hconn, hfiles]
        simp only [sslSettings, sslCheckFiles, hone]
    · have hone1 : sslCheckOne k r "ssl_certfile" = .ok () := by
        unfold sslCheckOne
        rw [if_neg b1]
      by_cases b2 : pyTruthy (v "ssl_keyfile") && !(r (v "ssl_keyfile"))
      · have hone : sslCheckOne k r "ssl_keyfile"
            = .error (.improperlyConfigured (mkSslMsg (v "ssl_keyfile")
              "ssl_keyfile")) := by
          unfold sslCheckOne
          rw [if_pos b2]
        refine ⟨"ssl_keyfile", by decide, ?_, ?_, ?_⟩
        · exact (Bool.and_eq_true _ _).mp b2 |>.1
        · have := (Bool.and_eq_true _ _).mp b2 |>.2
          simpa using this
        · rw [hconn, hfiles]
          simp only [sslSettings, sslCheckFiles, hone1, hone]
      · have hone2 : sslCheckOne k r "ssl_keyfile" = .ok () := by
          unfold sslCheckOne
          rw [if_neg b2]
        by_cases b3 : pyTruthy (v "ssl_ca_certs") && !(r (v "ssl_ca_certs"))
        · have hone : sslCheckOne k r "ssl_ca_certs"
              = .error (.improperlyConfigured (mkSslMsg (v "ssl_ca_certs")
                "ssl_ca_certs")) := by
            unfold sslCheckOne
            rw [if_pos b3]
          refine ⟨"ssl_ca_certs", by decide, ?_, ?_, ?_⟩
          · exact (Bool.and_eq_true _ _).mp b3 |>.1
          · have := (Bool.and_eq_true _ _).mp b3 |>.2
            simpa using this
          · rw [hconn, hfiles]
            simp only [sslSettings, sslCheckFiles, hone1, hone2, hone]
        · exfalso
          obtain ⟨fs, hfs, htr, hrd⟩ := hbad
          have hcond : (pyTruthy (v fs) && !(r (v fs))) = true := by
            rw [hv]
            simp only
            rw [htr, hrd]
            rfl
          rcases (by simpa [sslSettings] using hfs :
              fs = "ssl_certfile" ∨ fs = "ssl_keyfile" ∨
                fs = "ssl_ca_certs") with rfl | rfl | rfl
          · exact b1 hcond
          · exact b2 hcond
          · exact b3 hcond

/-- Witness for C8: with `ssl=true` and an unreadable `ssl_certfile`,
connect fails naming `/nope` and `ssl_certfile`; with `ssl` absent the
result is oracle-independent. -/
theorem claim_C8_ssl_files_witness :
    (∀ r2, connect [] "redis://h/0" (fun _ => false)
      = connect [] "redis://h/0" r2) ∧
    (∃ fs ∈ sslSettings,
      pyTruthy ((getKV [("ssl", PyVal.bool true),
          ("ssl_certfile", PyVal.str "/nope"), ("host", PyVal.str "h")]
        fs).getD .none) = true ∧
      (fun _ => false : PyVal → Bool) ((getKV [("ssl", PyVal.bool true),
          ("ssl_certfile", PyVal.str "/nope"), ("host", PyVal.str "h")]
        fs).getD .none) = false ∧
      connect [("ssl", PyVal.bool true), ("ssl_certfile", PyVal.str "/nope")]
          "redis://h/" (fun _ => false)
        = .error (.improperlyConfigured
            (mkSslMsg ((getKV [("ssl", PyVal.bool true),
                ("ssl_certfile", PyVal.str "/nope"), ("host", PyVal.str "h")]
              fs).getD .none) fs))) :=
  ⟨(claim_C8_ssl_files [] "redis://h/0" (fun _ => false)
      [("host", PyVal.str "h"), ("db", PyVal.int 0)] (by decide)).1
    (by decide),
   (claim_C8_ssl_files [("ssl", PyVal.bool true),
        ("ssl_certfile", PyVal.str "/nope")]
      "redis://h/" (fun _ => false)
      [("ssl", PyVal.bool true), ("ssl_certfile", PyVal.str "/nope"),
       ("host", PyVal.str "h")]
      (by decide)).2 (by decide)
    ⟨"ssl_certfile", by decide, by decide, by decide⟩⟩

/-! ### Heap-model correspondence -/

theorem connectHeap_run (heap : List Kwargs) (optsRef : Nat) (url : String)
    (r : PyVal → Bool) :
    (connectHeap heap optsRef url r).1 = connect (heapGetD heap optsRef) url r ∧
    ∃ v, (connectHeap heap optsRef url r).2 = heap ++ [v] := by
  unfold connectHeap connect buildKwargs
  simp only [heapGetD_append_self, heapSet_append_self]
  cases hpe : pyUrlparseE url with
  | error e =>
    simp only [hpe]
    exact ⟨by trivial, _, rfl⟩
  | ok p =>
    simp only [hpe]
    cases ha : applyUrl (popKV (popKV (heapGetD heap optsRef) "clustered")
        "clustered_hosts") p with
    | error e =>
      simp only [ha]
      exact ⟨by trivial, _, rfl⟩
    | ok k =>
      simp only [ha]
      cases hc : sslCheck (applyQuery k p.query) r with
      | error e =>
        simp only [hc]
        exact ⟨by trivial, _, rfl⟩
      | ok u =>
        simp only [hc]
        exact ⟨by trivial, _, rfl⟩

/-- C9: connect never mutates the caller's options dictionary.  In the
heap model (`connectHeap` performs every dictionary mutation on the fresh
deep copy allocated at the start of the call), for every valid reference
to an options dictionary: after a connect call, the dictionary at that
reference is unchanged, and a second connect call through the same
reference on the post-call store returns the same result as the first —
the removal of the cluster keys and all subsequent insertions are
invisible to the original options. -/
theorem claim_C9_no_mutation (heap : List Kwargs) (optsRef : Nat)
    (url : String) (r : PyVal → Bool) (hlt : optsRef < heap.length) :
    heapGetD (connectHeap heap optsRef url r).2 optsRef
      = heapGetD heap optsRef ∧
    (connectHeap (connectHeap heap optsRef url r).2 optsRef url r).1
      = (connectHeap heap optsRef url r).1 := by
  obtain ⟨v, hv⟩ := (connectHeap_run heap optsRef url r).2
  have hframe : heapGetD (connectHeap heap optsRef url r).2 optsRef
      = heapGetD heap optsRef := by
    rw [hv]
    exact heapGetD_append_ne _ _ _ (Nat.ne_of_lt hlt)
  refine ⟨hframe, ?_⟩
  rw [(connectHeap_run _ _ _ _).1, (connectHeap_run _ _ _ _).1, hframe]

/-- Witness for C9: a concrete store with one options dictionary holding
cluster settings and an ssl flag. -/
theorem claim_C9_no_mutation_witness :
    heapGetD (connectHeap
        [[("clustered", PyVal.bool true),
          ("clustered_hosts", PyVal.str "a:1,b:2")]]
        0 "redis://localhost:6379/0" (fun _ => true)).2 0
      = heapGetD
        [[("clustered", PyVal.bool true),
          ("clustered_hosts", PyVal.str "a:1,b:2")]] 0 ∧
    (connectHeap (connectHeap
        [[("clustered", PyVal.bool true),
          ("clustered_hosts", PyVal.str "a:1,b:2")]]
        0 "redis://localhost:6379/0" (fun _ => true)).2
        0 "redis://localhost:6379/0" (fun _ => true)).1
      = (connectHeap
        [[("clustered", PyVal.bool true),
          ("clustered_hosts", PyVal.str "a:1,b:2")]]
        0 "redis://localhost:6379/0" (fun _ => true)).1 :=
  claim_C9_no_mutation
    [[("clustered", PyVal.bool true),
      ("clustered_hosts", PyVal.str "a:1,b:2")]]
    0 "redis://localhost:6379/0" (fun _ => true) (by decide)
